import Mathlib

/-!
Shallow embedding of the EnhancedTimerManager plugin
(Source/EnhancedTimerManager): the timer record model, the
per-tick snapshot / pre-scan / mutation / fire / cleanup pipeline of
`UEnhancedTimerManagerSubsystem::Tick`, the creation operations, the
id allocator, and the handle-based query API.

Modelling conventions:
- `float` values are embedded as `ℚ`; the engine constants
  `KINDA_SMALL_NUMBER` (1e-4) and `UE_SMALL_NUMBER` (1e-8) are the exact
  rationals used in the threshold comparisons.
- `uint64` is `Nat` with explicit reduction modulo `2 ^ 64` where the C++
  increment can overflow (`AllocateId`).
- `TMap<uint64, FEnhancedTimerData>` is an association list
  `List (Nat × FEnhancedTimerData)`; keys are unique in every reachable
  state because ids come from the allocator, and `TMap::Add` on a fresh
  key is an append.
- Weak pointers (`TWeakObjectPtr<AActor> DilationActor`,
  the handle's `Owner`) are embedded as `Option`/`Bool` aliveness
  information: a live dilation actor carries its `CustomTimeDilation`.
- Delegate invocation is externally observable but has no effect on the
  store in this model (callbacks are opaque); a tick returns the list of
  ids whose delegate was executed, in execution order.  Because the
  modelled callback cannot mutate the store, the `FindMutable` re-fetch
  in `ExecuteFired` returns the same record that `GetData` returned, so
  the two lookups are collapsed into one.
- The random draw `FMath::FRandRange(-Variation, Variation)` in
  `SetEnhancedTimer` is an explicit parameter `Rand`; theorems about it
  carry the hypothesis `-Variation ≤ Rand ≤ Variation`.
-/

namespace EnhancedTimerManager

/-- Engine constant KINDA_SMALL_NUMBER = 1e-4, the epsilon of the phase
threshold comparisons. -/
def KINDA_SMALL_NUMBER : ℚ := 1 / 10000

/-- Engine constant UE_SMALL_NUMBER = 1e-8, the floor applied to a live
dilation actor's CustomTimeDilation. -/
def UE_SMALL_NUMBER : ℚ := 1 / 100000000

/-- Number of values of a uint64. -/
def UINT64_MOD : Nat := 2 ^ 64

/-- EEnhancedTimerTimeDilationMode (EnhancedTimerManagerTypes.h). -/
inductive EEnhancedTimerTimeDilationMode
  | IgnoreTimeDilation
  | GlobalTimeDilation
  | ActorTimeDilation
deriving DecidableEq

/-- FEnhancedTimerData::ETimerPhase (EnhancedTimerManagerSubsystem.h). -/
inductive ETimerPhase
  | InitialDelay
  | Running
deriving DecidableEq

/-- FEnhancedTimerData (EnhancedTimerManagerSubsystem.h).  The two
delegate members are represented only by the `bUseDynamic` tag; the
`DilationActor` weak pointer is `some scale` when the actor is alive with
CustomTimeDilation `scale`, `none` when dead or never set. -/
structure FEnhancedTimerData where
  Id : Nat
  bUseDynamic : Bool
  bLoop : Bool
  bPaused : Bool
  bAffectedByGamePause : Bool
  bNextTick : Bool
  Duration : ℚ
  PhaseElapsed : ℚ
  InitialDelay : ℚ
  Phase : ETimerPhase
  DilationMode : EEnhancedTimerTimeDilationMode
  DilationActor : Option ℚ
deriving DecidableEq

/-- FEnhancedTimerData::GetEffectiveDelta.  `GlobalScale` is the value of
`UGameplayStatics::GetGlobalTimeDilation(World)`; the `World` pointer is
non-null whenever this is reached from `Tick` (which returns early on a
null world), so the null-world fallback of the Global branch is not
modelled. -/
def FEnhancedTimerData.GetEffectiveDelta (T : FEnhancedTimerData)
    (WorldDelta GlobalScale : ℚ) : ℚ :=
  match T.DilationMode with
  | .GlobalTimeDilation => WorldDelta * GlobalScale
  | .ActorTimeDilation =>
      match T.DilationActor with
      | some Scale => WorldDelta * max UE_SMALL_NUMBER Scale
      | none => WorldDelta
  | .IgnoreTimeDilation => WorldDelta

/-- FEnhancedTimerData::Advance. -/
def FEnhancedTimerData.Advance (T : FEnhancedTimerData) (EffDelta : ℚ) :
    FEnhancedTimerData :=
  { T with PhaseElapsed := T.PhaseElapsed + EffDelta }

/-- FEnhancedTimerData::TryTransitFromDelay; the Bool is the C++ return
value (true iff the transition happened). -/
def FEnhancedTimerData.TryTransitFromDelay (T : FEnhancedTimerData) :
    FEnhancedTimerData × Bool :=
  if T.Phase = ETimerPhase.InitialDelay ∧
      T.InitialDelay ≤ T.PhaseElapsed + KINDA_SMALL_NUMBER then
    ({ T with Phase := ETimerPhase.Running, PhaseElapsed := 0 }, true)
  else
    (T, false)

/-- FEnhancedTimerData::ShouldFire. -/
def FEnhancedTimerData.ShouldFire (T : FEnhancedTimerData) : Bool :=
  decide (T.Phase = ETimerPhase.Running ∧
    T.Duration ≤ T.PhaseElapsed + KINDA_SMALL_NUMBER)

/-- The subsystem's timer map. -/
abbrev TimerStore := List (Nat × FEnhancedTimerData)

/-- TMap::Find by key (first entry with the key). -/
def findTimer : TimerStore → Nat → Option FEnhancedTimerData
  | [], _ => none
  | p :: rest, Id => if p.1 = Id then some p.2 else findTimer rest Id

/-- In-place mutation of the entry with the given key (no-op when the key
is absent), as done through `FindMutable`. -/
def updateTimer (Timers : TimerStore) (Id : Nat)
    (f : FEnhancedTimerData → FEnhancedTimerData) : TimerStore :=
  Timers.map (fun p => if p.1 = Id then (p.1, f p.2) else p)

/-- The mutable state of UEnhancedTimerManagerSubsystem that the claims
are about: the timer map, the per-tick work lists and the id counter. -/
structure SubsystemState where
  Timers : TimerStore
  FiredThisTick : List Nat
  ToRemove : List Nat
  ToUnpause : List Nat
  NextId : Nat
deriving DecidableEq

/-- The state right after `Initialize` (member initializers: empty
containers, `NextId = 1`). -/
def InitialState : SubsystemState :=
  { Timers := [], FiredThisTick := [], ToRemove := [], ToUnpause := [],
    NextId := 1 }

/-- UEnhancedTimerManagerSubsystem::Deinitialize: empties every container
and resets `NextId` to 1. -/
def DeinitializeState (_s : SubsystemState) : SubsystemState :=
  InitialState

/-- UEnhancedTimerManagerSubsystem::AllocateId:
`Out = NextId++; if (NextId == 0) NextId = 1; return Out;` with the
uint64 increment taken modulo `2 ^ 64`. -/
def AllocateId (s : SubsystemState) : Nat × SubsystemState :=
  let Out := s.NextId
  let Incremented := (s.NextId + 1) % UINT64_MOD
  let Next := if Incremented = 0 then 1 else Incremented
  (Out, { s with NextId := Next })

/-- The record built by UEnhancedTimerManagerSubsystem::SetEnhancedTimer
(lines 99-124) before insertion, given the allocated id and the value
`Rand` drawn by `FMath::FRandRange(-Variation, Variation)`. -/
def SetEnhancedTimerData (Id : Nat) (Duration : ℚ)
    (DilationMode : EEnhancedTimerTimeDilationMode)
    (DilationActor : Option ℚ)
    (bAffectedByGamePause bLoop : Bool)
    (DelayToStartCountingDown DelayToStartCountingDownVariation : ℚ)
    (Rand : ℚ) : FEnhancedTimerData :=
  let Data : FEnhancedTimerData :=
    { Id := Id, bUseDynamic := false, bLoop := bLoop, bPaused := false,
      bAffectedByGamePause := bAffectedByGamePause, bNextTick := false,
      Duration := max 0 Duration, PhaseElapsed := 0, InitialDelay := 0,
      Phase := ETimerPhase.Running, DilationMode := DilationMode,
      DilationActor := DilationActor }
  if 0 < DelayToStartCountingDown ∨ 0 < DelayToStartCountingDownVariation then
    let Bigger := max 0 Rand
    let Delay := max 0 (DelayToStartCountingDown + Bigger)
    if 0 < Delay then
      { Data with
        InitialDelay := Delay, Phase := ETimerPhase.InitialDelay,
        PhaseElapsed := 0 }
    else
      { Data with InitialDelay := Delay }
  else
    Data

/-- A timer handle: id plus owner-aliveness of the weak `Owner`
reference; when the owner is alive, its store is passed to the handle
operations separately. -/
structure FEnhancedTimerHandle where
  Id : Nat
  OwnerAlive : Bool
deriving DecidableEq

/-- UEnhancedTimerManagerSubsystem::SetEnhancedTimer (game-thread path):
allocate an id, build the record, `TMap::Add` it (append: the key is
fresh), and return the handle. -/
def SetEnhancedTimer (s : SubsystemState) (Duration : ℚ)
    (DilationMode : EEnhancedTimerTimeDilationMode)
    (DilationActor : Option ℚ)
    (bAffectedByGamePause bLoop : Bool)
    (DelayToStartCountingDown DelayToStartCountingDownVariation : ℚ)
    (Rand : ℚ) : SubsystemState × FEnhancedTimerHandle :=
  let A := AllocateId s
  let Data := SetEnhancedTimerData A.1 Duration DilationMode DilationActor
    bAffectedByGamePause bLoop DelayToStartCountingDown
    DelayToStartCountingDownVariation Rand
  ({ A.2 with Timers := A.2.Timers ++ [(A.1, Data)] },
   { Id := A.1, OwnerAlive := true })

/-- The record built by SetEnhancedTimer_BP (lines 192-217): identical to
the native one except that the dynamic delegate is bound
(`bUseDynamic = true`). -/
def SetEnhancedTimerData_BP (Id : Nat) (Duration : ℚ)
    (DilationMode : EEnhancedTimerTimeDilationMode)
    (DilationActor : Option ℚ)
    (bAffectedByGamePause bLoop : Bool)
    (DelayToStartCountingDown DelayToStartCountingDownVariation : ℚ)
    (Rand : ℚ) : FEnhancedTimerData :=
  { SetEnhancedTimerData Id Duration DilationMode DilationActor
      bAffectedByGamePause bLoop DelayToStartCountingDown
      DelayToStartCountingDownVariation Rand with
    bUseDynamic := true }

/-- UEnhancedTimerManagerSubsystem::SetEnhancedTimer_BP
(game-thread path). -/
def SetEnhancedTimer_BP (s : SubsystemState) (Duration : ℚ)
    (DilationMode : EEnhancedTimerTimeDilationMode)
    (DilationActor : Option ℚ)
    (bAffectedByGamePause bLoop : Bool)
    (DelayToStartCountingDown DelayToStartCountingDownVariation : ℚ)
    (Rand : ℚ) : SubsystemState × FEnhancedTimerHandle :=
  let A := AllocateId s
  let Data := SetEnhancedTimerData_BP A.1 Duration DilationMode
    DilationActor bAffectedByGamePause bLoop DelayToStartCountingDown
    DelayToStartCountingDownVariation Rand
  ({ A.2 with Timers := A.2.Timers ++ [(A.1, Data)] },
   { Id := A.1, OwnerAlive := true })

/-- The record built by SetEnhancedTimerExecutedInNextTick
(lines 147-159): duration 0, running phase, pause-immune
(`bAffectedByGamePause = true`), next-tick flag set, no loop. -/
def NextTickData (Id : Nat) : FEnhancedTimerData :=
  { Id := Id, bUseDynamic := false, bLoop := false, bPaused := false,
    bAffectedByGamePause := true, bNextTick := true,
    Duration := 0, PhaseElapsed := 0, InitialDelay := 0,
    Phase := ETimerPhase.Running,
    DilationMode := EEnhancedTimerTimeDilationMode.IgnoreTimeDilation,
    DilationActor := none }

/-- UEnhancedTimerManagerSubsystem::SetEnhancedTimerExecutedInNextTick
(game-thread path). -/
def SetEnhancedTimerExecutedInNextTick (s : SubsystemState) :
    SubsystemState × FEnhancedTimerHandle :=
  let A := AllocateId s
  ({ A.2 with Timers := A.2.Timers ++ [(A.1, NextTickData A.1)] },
   { Id := A.1, OwnerAlive := true })

/-- The record built by SetEnhancedTimerExecutedInNextTick_BP
(lines 240-252): the next-tick record with the dynamic delegate bound. -/
def NextTickData_BP (Id : Nat) : FEnhancedTimerData :=
  { NextTickData Id with bUseDynamic := true }

/-- UEnhancedTimerManagerSubsystem::SetEnhancedTimerExecutedInNextTick_BP
(game-thread path). -/
def SetEnhancedTimerExecutedInNextTick_BP (s : SubsystemState) :
    SubsystemState × FEnhancedTimerHandle :=
  let A := AllocateId s
  ({ A.2 with Timers := A.2.Timers ++ [(A.1, NextTickData_BP A.1)] },
   { Id := A.1, OwnerAlive := true })

/-- Host-supplied context of one Tick call: whether `GetWorld()` is
non-null, `UGameplayStatics::IsGamePaused`, and the global time
dilation. -/
structure TickEnv where
  WorldValid : Bool
  bPausedNow : Bool
  GlobalScale : ℚ

/-- The pre-scan pass of Tick (lines 285-297): over the snapshot, skip
explicitly paused records and (when the host is paused) records not
affected-by-game-pause, then mark every next-tick record as fired. -/
def prescanPass (bPausedNow : Bool) : TimerStore → List Nat
  | [] => []
  | p :: rest =>
      if p.2.bPaused then prescanPass bPausedNow rest
      else if bPausedNow && !p.2.bAffectedByGamePause then
        prescanPass bPausedNow rest
      else if p.2.bNextTick then p.1 :: prescanPass bPausedNow rest
      else prescanPass bPausedNow rest

/-- The per-record body of the mutation pass of Tick (lines 302-328):
skip when explicitly paused, when frozen by host pause, or when
next-tick; otherwise advance by the effective delta, try the
InitialDelay→Running transition (which suppresses firing), else test
ShouldFire.  Returns the updated record and whether its id was added to
FiredThisTick. -/
def tickMutateOne (DeltaTime GlobalScale : ℚ) (bPausedNow : Bool)
    (T : FEnhancedTimerData) : FEnhancedTimerData × Bool :=
  if T.bPaused then (T, false)
  else if bPausedNow && !T.bAffectedByGamePause then (T, false)
  else if T.bNextTick then (T, false)
  else
    let Eff := T.GetEffectiveDelta DeltaTime GlobalScale
    let T1 := T.Advance Eff
    let R := T1.TryTransitFromDelay
    if R.2 then (R.1, false)
    else (R.1, R.1.ShouldFire)

/-- The mutation pass over the whole live map, collecting the ids
appended to FiredThisTick in iteration order. -/
def mutationPass (DeltaTime GlobalScale : ℚ) (bPausedNow : Bool) :
    TimerStore → TimerStore × List Nat
  | [] => ([], [])
  | p :: rest =>
      let R := tickMutateOne DeltaTime GlobalScale bPausedNow p.2
      let Rest := mutationPass DeltaTime GlobalScale bPausedNow rest
      ((p.1, R.1) :: Rest.1, if R.2 then p.1 :: Rest.2 else Rest.2)

/-- Post-fire reset applied to a looping record in ExecuteFired
(lines 374-380). -/
def resetLoopFire (T : FEnhancedTimerData) : FEnhancedTimerData :=
  { T with
    Phase := ETimerPhase.Running, PhaseElapsed := 0,
    bNextTick := false }

/-- The loop body of ExecuteFired (lines 349-386) over the fired ids:
re-fetch the record (skip silently when gone), execute its delegate
(recorded in the invoked list; the modelled callback does not touch the
store, so the `FindMutable` re-fetch sees the same record), then either
reset a looping record or queue the id for removal.
Arguments: pending ids, live map, ToRemove accumulator, invoked-ids
accumulator; returns the final (map, ToRemove, invoked). -/
def executeFiredLoop : List Nat → TimerStore → List Nat → List Nat →
    TimerStore × List Nat × List Nat
  | [], Timers, ToRemove, Invoked => (Timers, ToRemove, Invoked)
  | Id :: rest, Timers, ToRemove, Invoked =>
      match findTimer Timers Id with
      | none => executeFiredLoop rest Timers ToRemove Invoked
      | some M =>
          if M.bLoop then
            executeFiredLoop rest (updateTimer Timers Id resetLoopFire)
              ToRemove (Invoked ++ [Id])
          else
            executeFiredLoop rest Timers (ToRemove ++ [Id])
              (Invoked ++ [Id])

/-- UEnhancedTimerManagerSubsystem::Cleanup (lines 389-409): early return
when both queues are empty; otherwise remove every queued id from the
map, then clear `bPaused` on every queued deferred-unpause id, and reset
both queues. -/
def Cleanup (s : SubsystemState) : SubsystemState :=
  if s.ToRemove = [] ∧ s.ToUnpause = [] then s
  else
    let T1 := s.Timers.filter (fun p => decide (p.1 ∉ s.ToRemove))
    let T2 := s.ToUnpause.foldl
      (fun acc Id => updateTimer acc Id (fun T => { T with bPaused := false }))
      T1
    { s with Timers := T2, ToRemove := [], ToUnpause := [] }

/-- UEnhancedTimerManagerSubsystem::Tick (lines 262-338): no-op on a null
world; otherwise snapshot (the association list itself), pre-scan the
next-tick records, run the mutation pass under the write lock, execute
the fired delegates (ExecuteFired first moves FiredThisTick into the
reusable buffer and resets it), and clean up.  Returns the new state and
the ids whose delegate was invoked, in order.  The FiredThisTick list
after the pre-scan and mutation passes (the list handed to
ExecuteFired): -/
def tickFired (env : TickEnv) (DeltaTime : ℚ) (s : SubsystemState) :
    List Nat :=
  s.FiredThisTick ++ prescanPass env.bPausedNow s.Timers ++
    (mutationPass DeltaTime env.GlobalScale env.bPausedNow s.Timers).2

/-- The (map, ToRemove, invoked) triple produced by the ExecuteFired call
inside Tick, applied to the mutated map and the fired list. -/
def tickExec (env : TickEnv) (DeltaTime : ℚ) (s : SubsystemState) :
    TimerStore × List Nat × List Nat :=
  executeFiredLoop (tickFired env DeltaTime s)
    (mutationPass DeltaTime env.GlobalScale env.bPausedNow s.Timers).1
    s.ToRemove []

/-- UEnhancedTimerManagerSubsystem::Tick, assembled from the passes
above. -/
def Tick (env : TickEnv) (DeltaTime : ℚ) (s : SubsystemState) :
    SubsystemState × List Nat :=
  if env.WorldValid then
    (Cleanup { s with
        Timers := (tickExec env DeltaTime s).1, FiredThisTick := [],
        ToRemove := (tickExec env DeltaTime s).2.1 },
     (tickExec env DeltaTime s).2.2)
  else
    (s, [])

/-- Repeated Tick calls with the given per-frame deltas; collects every
delegate invocation in order. -/
def runTicks (env : TickEnv) : List ℚ → SubsystemState →
    SubsystemState × List Nat
  | [], s => (s, [])
  | d :: rest, s =>
      let r1 := Tick env d s
      let r2 := runTicks env rest r1.1
      (r2.1, r1.2 ++ r2.2)

/-- UEnhancedTimerManagerSubsystem::GetData. -/
def GetData (Timers : TimerStore) (Id : Nat) : Option FEnhancedTimerData :=
  findTimer Timers Id

/-- UEnhancedTimerManagerSubsystem::IsTimerValid. -/
def IsTimerValid (Timers : TimerStore) (h : FEnhancedTimerHandle) : Bool :=
  if h.Id = 0 then false else (findTimer Timers h.Id).isSome

/-- UEnhancedTimerManagerSubsystem::IsTimerPaused. -/
def IsTimerPaused (Timers : TimerStore) (h : FEnhancedTimerHandle) : Bool :=
  match GetData Timers h.Id with
  | some T => T.bPaused
  | none => false

/-- UEnhancedTimerManagerSubsystem::IsTimerLooping. -/
def IsTimerLooping (Timers : TimerStore) (h : FEnhancedTimerHandle) : Bool :=
  match GetData Timers h.Id with
  | some T => T.bLoop
  | none => false

/-- UEnhancedTimerManagerSubsystem::GetTimerDuration. -/
def GetTimerDuration (Timers : TimerStore) (h : FEnhancedTimerHandle) : ℚ :=
  match GetData Timers h.Id with
  | some T => T.Duration
  | none => -1

/-- UEnhancedTimerManagerSubsystem::GetTimerTimeLeft. -/
def GetTimerTimeLeft (Timers : TimerStore) (h : FEnhancedTimerHandle) : ℚ :=
  match GetData Timers h.Id with
  | none => -1
  | some T =>
      if T.Phase = ETimerPhase.InitialDelay then
        max 0 (T.InitialDelay - T.PhaseElapsed)
      else
        max 0 (T.Duration - T.PhaseElapsed)

/-- UEnhancedTimerManagerSubsystem::GetTimerElapsedTime. -/
def GetTimerElapsedTime (Timers : TimerStore) (h : FEnhancedTimerHandle) : ℚ :=
  match GetData Timers h.Id with
  | some T => T.PhaseElapsed
  | none => -1

/-- UEnhancedTimerManagerSubsystem::IsTimerAffectedByGamePause. -/
def IsTimerAffectedByGamePause (Timers : TimerStore)
    (h : FEnhancedTimerHandle) : Bool :=
  match GetData Timers h.Id with
  | some T => T.bAffectedByGamePause
  | none => false

/-- UEnhancedTimerManagerSubsystem::GetTimerTimeDilationMode. -/
def GetTimerTimeDilationMode (Timers : TimerStore)
    (h : FEnhancedTimerHandle) : EEnhancedTimerTimeDilationMode :=
  match GetData Timers h.Id with
  | some T => T.DilationMode
  | none => EEnhancedTimerTimeDilationMode.IgnoreTimeDilation

/-- FEnhancedTimerHandle::IsValid (EnhancedTimerHandle.cpp): nonzero id,
live owner, and id present in the owner's store. -/
def FEnhancedTimerHandle.IsValid (h : FEnhancedTimerHandle)
    (Timers : TimerStore) : Bool :=
  h.Id ≠ 0 && h.OwnerAlive && IsTimerValid Timers h

/-- FEnhancedTimerHandle::IsPaused. -/
def FEnhancedTimerHandle.IsPaused (h : FEnhancedTimerHandle)
    (Timers : TimerStore) : Bool :=
  if h.OwnerAlive then IsTimerPaused Timers h else false

/-- FEnhancedTimerHandle::IsLooping. -/
def FEnhancedTimerHandle.IsLooping (h : FEnhancedTimerHandle)
    (Timers : TimerStore) : Bool :=
  if h.OwnerAlive then IsTimerLooping Timers h else false

/-- FEnhancedTimerHandle::GetDuration. -/
def FEnhancedTimerHandle.GetDuration (h : FEnhancedTimerHandle)
    (Timers : TimerStore) : ℚ :=
  if h.OwnerAlive then GetTimerDuration Timers h else -1

/-- FEnhancedTimerHandle::GetTimeLeft. -/
def FEnhancedTimerHandle.GetTimeLeft (h : FEnhancedTimerHandle)
    (Timers : TimerStore) : ℚ :=
  if h.OwnerAlive then GetTimerTimeLeft Timers h else -1

/-- FEnhancedTimerHandle::GetElapsedTime. -/
def FEnhancedTimerHandle.GetElapsedTime (h : FEnhancedTimerHandle)
    (Timers : TimerStore) : ℚ :=
  if h.OwnerAlive then GetTimerElapsedTime Timers h else -1

/-- FEnhancedTimerHandle::IsAffectedByGamePause. -/
def FEnhancedTimerHandle.IsAffectedByGamePause (h : FEnhancedTimerHandle)
    (Timers : TimerStore) : Bool :=
  if h.OwnerAlive then IsTimerAffectedByGamePause Timers h else false

/-- FEnhancedTimerHandle::GetTimeDilationMode. -/
def FEnhancedTimerHandle.GetTimeDilationMode (h : FEnhancedTimerHandle)
    (Timers : TimerStore) : EEnhancedTimerTimeDilationMode :=
  if h.OwnerAlive then GetTimerTimeDilationMode Timers h
  else EEnhancedTimerTimeDilationMode.IgnoreTimeDilation

/-- A concrete running timer record used to instantiate theorems on
closed inputs. -/
def sampleData : FEnhancedTimerData :=
  { Id := 7, bUseDynamic := false, bLoop := false, bPaused := false,
    bAffectedByGamePause := false, bNextTick := false,
    Duration := 2, PhaseElapsed := 0, InitialDelay := 0,
    Phase := ETimerPhase.Running,
    DilationMode := EEnhancedTimerTimeDilationMode.IgnoreTimeDilation,
    DilationActor := none }

/-- One step of the id-allocation history of the subsystem over the
process lifetime: either an id allocation (from any creation call) or a
Deinitialize (followed by a fresh Initialize). -/
inductive IdOp
  | Alloc
  | Deinit
deriving DecidableEq

/-- The ids produced by a sequence of allocation-history steps, with the
resulting state. -/
def idTrace : List IdOp → SubsystemState → List Nat × SubsystemState
  | [], s => ([], s)
  | IdOp.Alloc :: rest, s =>
      let A := AllocateId s
      let R := idTrace rest A.2
      (A.1 :: R.1, R.2)
  | IdOp.Deinit :: rest, s => idTrace rest (DeinitializeState s)

lemma KINDA_SMALL_NUMBER_pos : 0 < KINDA_SMALL_NUMBER := by
  norm_num [KINDA_SMALL_NUMBER]

/-- Claim C4: the Dilation Resolver is a pure function of mode, raw
delta, global scale and source-aliveness: Ignore yields the raw delta,
Global multiplies by the global scale, BySource with a live source
multiplies by `max ε sourceScale`, BySource with a dead source falls back
to the raw delta, and on every raw delta sequence BySource-with-dead-
source coincides with Ignore mode. -/
theorem C4_dilation_resolver :
    (∀ (T : FEnhancedTimerData) (rawDelta g : ℚ),
      T.DilationMode = EEnhancedTimerTimeDilationMode.IgnoreTimeDilation →
      T.GetEffectiveDelta rawDelta g = rawDelta) ∧
    (∀ (T : FEnhancedTimerData) (rawDelta g : ℚ),
      T.DilationMode = EEnhancedTimerTimeDilationMode.GlobalTimeDilation →
      T.GetEffectiveDelta rawDelta g = rawDelta * g) ∧
    (∀ (T : FEnhancedTimerData) (rawDelta g Scale : ℚ),
      T.DilationMode = EEnhancedTimerTimeDilationMode.ActorTimeDilation →
      T.DilationActor = some Scale →
      T.GetEffectiveDelta rawDelta g =
        rawDelta * max UE_SMALL_NUMBER Scale) ∧
    (∀ (T : FEnhancedTimerData) (rawDelta g : ℚ),
      T.DilationMode = EEnhancedTimerTimeDilationMode.ActorTimeDilation →
      T.DilationActor = none →
      T.GetEffectiveDelta rawDelta g = rawDelta) ∧
    (∀ (T : FEnhancedTimerData) (g : ℚ) (deltas : List ℚ),
      T.DilationMode = EEnhancedTimerTimeDilationMode.ActorTimeDilation →
      T.DilationActor = none →
      deltas.map (fun d => T.GetEffectiveDelta d g) =
        deltas.map (fun d =>
          ({ T with
             DilationMode :=
               EEnhancedTimerTimeDilationMode.IgnoreTimeDilation
           }).GetEffectiveDelta d g)) := by
  refine ⟨?_, ?_, ?_, ?_, ?_⟩
  · intro T rawDelta g hm
    simp [FEnhancedTimerData.GetEffectiveDelta, hm]
  · intro T rawDelta g hm
    simp [FEnhancedTimerData.GetEffectiveDelta, hm]
  · intro T rawDelta g Scale hm ha
    simp [FEnhancedTimerData.GetEffectiveDelta, hm, ha]
  · intro T rawDelta g hm ha
    simp [FEnhancedTimerData.GetEffectiveDelta, hm, ha]
  · intro T g deltas hm ha
    refine List.map_congr_left ?_
    intro d _
    simp [FEnhancedTimerData.GetEffectiveDelta, hm, ha]

theorem C4_dilation_resolver_witness :
    (sampleData.GetEffectiveDelta 3 5 = 3) ∧
    (({ sampleData with
        DilationMode := EEnhancedTimerTimeDilationMode.GlobalTimeDilation
      } : FEnhancedTimerData).GetEffectiveDelta 3 5 = 3 * 5) ∧
    (({ sampleData with
        DilationMode := EEnhancedTimerTimeDilationMode.ActorTimeDilation,
        DilationActor := some 2
      } : FEnhancedTimerData).GetEffectiveDelta 3 5 =
      3 * max UE_SMALL_NUMBER 2) ∧
    (({ sampleData with
        DilationMode := EEnhancedTimerTimeDilationMode.ActorTimeDilation
      } : FEnhancedTimerData).GetEffectiveDelta 3 5 = 3) :=
  ⟨C4_dilation_resolver.1 sampleData 3 5 rfl,
   C4_dilation_resolver.2.1 _ 3 5 rfl,
   C4_dilation_resolver.2.2.1 _ 3 5 2 rfl rfl,
   C4_dilation_resolver.2.2.2.1 _ 3 5 rfl rfl⟩

/-- Claim C7: for an id present in the store, getTimeLeft returns
`max 0 (initialDelay − phaseElapsed)` in the InitialDelay phase and
`max 0 (duration − phaseElapsed)` otherwise, and getElapsedTime returns
the record's phaseElapsed unchanged. -/
theorem C7_time_queries (Timers : TimerStore) (h : FEnhancedTimerHandle)
    (T : FEnhancedTimerData) (hfind : findTimer Timers h.Id = some T) :
    GetTimerTimeLeft Timers h =
      (if T.Phase = ETimerPhase.InitialDelay then
        max 0 (T.InitialDelay - T.PhaseElapsed)
      else
        max 0 (T.Duration - T.PhaseElapsed)) ∧
    GetTimerElapsedTime Timers h = T.PhaseElapsed := by
  unfold GetTimerTimeLeft GetTimerElapsedTime GetData
  rw [hfind]
  exact ⟨rfl, rfl⟩

theorem C7_time_queries_witness :
    GetTimerTimeLeft [(7, sampleData)] { Id := 7, OwnerAlive := true } =
      (if sampleData.Phase = ETimerPhase.InitialDelay then
        max 0 (sampleData.InitialDelay - sampleData.PhaseElapsed)
      else
        max 0 (sampleData.Duration - sampleData.PhaseElapsed)) ∧
    GetTimerElapsedTime [(7, sampleData)] { Id := 7, OwnerAlive := true } =
      sampleData.PhaseElapsed :=
  C7_time_queries [(7, sampleData)] { Id := 7, OwnerAlive := true }
    sampleData rfl

/-- Claim C8: every query applied to an id absent from the store, or
through a handle whose owner is gone, returns its defined sentinel
(false for booleans, −1 for the float queries, Ignore for the dilation
mode) — the queries are pure functions of the store, so the store is
unchanged by construction. -/
theorem C8_missing_sentinels :
    (∀ (Timers : TimerStore) (h : FEnhancedTimerHandle),
      findTimer Timers h.Id = none →
      IsTimerValid Timers h = false ∧
      IsTimerPaused Timers h = false ∧
      IsTimerLooping Timers h = false ∧
      GetTimerDuration Timers h = -1 ∧
      GetTimerTimeLeft Timers h = -1 ∧
      GetTimerElapsedTime Timers h = -1 ∧
      IsTimerAffectedByGamePause Timers h = false ∧
      GetTimerTimeDilationMode Timers h =
        EEnhancedTimerTimeDilationMode.IgnoreTimeDilation) ∧
    (∀ (Timers : TimerStore) (h : FEnhancedTimerHandle),
      h.OwnerAlive = false →
      h.IsValid Timers = false ∧
      h.IsPaused Timers = false ∧
      h.IsLooping Timers = false ∧
      h.GetDuration Timers = -1 ∧
      h.GetTimeLeft Timers = -1 ∧
      h.GetElapsedTime Timers = -1 ∧
      h.IsAffectedByGamePause Timers = false ∧
      h.GetTimeDilationMode Timers =
        EEnhancedTimerTimeDilationMode.IgnoreTimeDilation) := by
  constructor
  · intro Timers h hfind
    unfold IsTimerValid IsTimerPaused IsTimerLooping GetTimerDuration
      GetTimerTimeLeft GetTimerElapsedTime IsTimerAffectedByGamePause
      GetTimerTimeDilationMode GetData
    rw [hfind]
    simp
  · intro Timers h hOwner
    unfold FEnhancedTimerHandle.IsValid FEnhancedTimerHandle.IsPaused
      FEnhancedTimerHandle.IsLooping FEnhancedTimerHandle.GetDuration
      FEnhancedTimerHandle.GetTimeLeft FEnhancedTimerHandle.GetElapsedTime
      FEnhancedTimerHandle.IsAffectedByGamePause
      FEnhancedTimerHandle.GetTimeDilationMode
    rw [hOwner]
    simp

theorem C8_missing_sentinels_witness :
    (IsTimerValid [] { Id := 7, OwnerAlive := true } = false ∧
     IsTimerPaused [] { Id := 7, OwnerAlive := true } = false ∧
     IsTimerLooping [] { Id := 7, OwnerAlive := true } = false ∧
     GetTimerDuration [] { Id := 7, OwnerAlive := true } = -1 ∧
     GetTimerTimeLeft [] { Id := 7, OwnerAlive := true } = -1 ∧
     GetTimerElapsedTime [] { Id := 7, OwnerAlive := true } = -1 ∧
     IsTimerAffectedByGamePause [] { Id := 7, OwnerAlive := true } = false ∧
     GetTimerTimeDilationMode [] { Id := 7, OwnerAlive := true } =
       EEnhancedTimerTimeDilationMode.IgnoreTimeDilation) ∧
    (FEnhancedTimerHandle.IsValid { Id := 7, OwnerAlive := false }
        [(7, sampleData)] = false ∧
     FEnhancedTimerHandle.IsPaused { Id := 7, OwnerAlive := false }
        [(7, sampleData)] = false ∧
     FEnhancedTimerHandle.IsLooping { Id := 7, OwnerAlive := false }
        [(7, sampleData)] = false ∧
     FEnhancedTimerHandle.GetDuration { Id := 7, OwnerAlive := false }
        [(7, sampleData)] = -1 ∧
     FEnhancedTimerHandle.GetTimeLeft { Id := 7, OwnerAlive := false }
        [(7, sampleData)] = -1 ∧
     FEnhancedTimerHandle.GetElapsedTime { Id := 7, OwnerAlive := false }
        [(7, sampleData)] = -1 ∧
     FEnhancedTimerHandle.IsAffectedByGamePause { Id := 7, OwnerAlive := false }
        [(7, sampleData)] = false ∧
     FEnhancedTimerHandle.GetTimeDilationMode { Id := 7, OwnerAlive := false }
        [(7, sampleData)] =
       EEnhancedTimerTimeDilationMode.IgnoreTimeDilation) :=
  ⟨C8_missing_sentinels.1 [] { Id := 7, OwnerAlive := true } rfl,
   C8_missing_sentinels.2 [(7, sampleData)] { Id := 7, OwnerAlive := false }
     rfl⟩

/-- Claim C9: for a creation call with baseDelay ≥ 0 and variation ≥ 0
and a random draw r ∈ [−variation, variation], the stored initialDelay is
`max 0 (baseDelay + max 0 r)`, lies in [baseDelay, baseDelay + variation]
(never below baseDelay), and when it is 0 the record starts directly in
the Running phase. -/
theorem C9_delay_generator (Id : Nat) (Duration : ℚ)
    (DilationMode : EEnhancedTimerTimeDilationMode)
    (DilationActor : Option ℚ) (bAffectedByGamePause bLoop : Bool)
    (base variation r : ℚ)
    (hbase : 0 ≤ base) (hvar : 0 ≤ variation)
    (hlo : -variation ≤ r) (hhi : r ≤ variation) :
    (SetEnhancedTimerData Id Duration DilationMode DilationActor
      bAffectedByGamePause bLoop base variation r).InitialDelay =
      max 0 (base + max 0 r) ∧
    base ≤ (SetEnhancedTimerData Id Duration DilationMode DilationActor
      bAffectedByGamePause bLoop base variation r).InitialDelay ∧
    (SetEnhancedTimerData Id Duration DilationMode DilationActor
      bAffectedByGamePause bLoop base variation r).InitialDelay ≤
      base + variation ∧
    ((SetEnhancedTimerData Id Duration DilationMode DilationActor
        bAffectedByGamePause bLoop base variation r).InitialDelay = 0 →
      (SetEnhancedTimerData Id Duration DilationMode DilationActor
        bAffectedByGamePause bLoop base variation r).Phase =
        ETimerPhase.Running) := by
  have hbig : (0 : ℚ) ≤ max 0 r := le_max_left 0 r
  have hbigv : max 0 r ≤ variation := max_le hvar hhi
  have hsum : (0 : ℚ) ≤ base + max 0 r := by linarith
  have hmax : max 0 (base + max 0 r) = base + max 0 r := max_eq_right hsum
  have hID : (SetEnhancedTimerData Id Duration DilationMode DilationActor
      bAffectedByGamePause bLoop base variation r).InitialDelay =
      max 0 (base + max 0 r) := by
    unfold SetEnhancedTimerData
    by_cases hbranch : 0 < base ∨ 0 < variation
    · simp only [if_pos hbranch]
      by_cases hpos : 0 < max 0 (base + max 0 r)
      · simp only [if_pos hpos]
      · simp only [if_neg hpos]
    · simp only [if_neg hbranch]
      push_neg at hbranch
      have hb0 : base = 0 := le_antisymm hbranch.1 hbase
      have hv0 : variation = 0 := le_antisymm hbranch.2 hvar
      have hr0 : r = 0 := by
        rw [hv0] at hlo hhi
        simp only [neg_zero] at hlo
        exact le_antisymm hhi hlo
      simp [hb0, hr0]
  have hPhase : (SetEnhancedTimerData Id Duration DilationMode DilationActor
      bAffectedByGamePause bLoop base variation r).InitialDelay = 0 →
      (SetEnhancedTimerData Id Duration DilationMode DilationActor
        bAffectedByGamePause bLoop base variation r).Phase =
        ETimerPhase.Running := by
    intro h0
    rw [hID] at h0
    unfold SetEnhancedTimerData
    by_cases hbranch : 0 < base ∨ 0 < variation
    · simp only [if_pos hbranch]
      by_cases hpos : 0 < max 0 (base + max 0 r)
      · rw [h0] at hpos
        exact absurd hpos (lt_irrefl 0)
      · simp only [if_neg hpos]
    · simp only [if_neg hbranch]
  refine ⟨hID, ?_, ?_, hPhase⟩
  · rw [hID, hmax]; linarith
  · rw [hID, hmax]; linarith

theorem C9_delay_generator_witness :
    ((0 : ℚ) ≤ 3 ∧ (0 : ℚ) ≤ 1 ∧ (-1 : ℚ) ≤ (1 : ℚ) ∧
      (1 : ℚ) ≤ 1) ∧
    ((SetEnhancedTimerData 7 2
        EEnhancedTimerTimeDilationMode.IgnoreTimeDilation none false false
        3 1 1).InitialDelay = max 0 (3 + max 0 1) ∧
      (3 : ℚ) ≤ (SetEnhancedTimerData 7 2
        EEnhancedTimerTimeDilationMode.IgnoreTimeDilation none false false
        3 1 1).InitialDelay ∧
      (SetEnhancedTimerData 7 2
        EEnhancedTimerTimeDilationMode.IgnoreTimeDilation none false false
        3 1 1).InitialDelay ≤ 3 + 1 ∧
      ((SetEnhancedTimerData 7 2
          EEnhancedTimerTimeDilationMode.IgnoreTimeDilation none false false
          3 1 1).InitialDelay = 0 →
        (SetEnhancedTimerData 7 2
          EEnhancedTimerTimeDilationMode.IgnoreTimeDilation none false false
          3 1 1).Phase = ETimerPhase.Running)) :=
  ⟨⟨by decide, by decide, by decide, by decide⟩,
   C9_delay_generator 7 2
     EEnhancedTimerTimeDilationMode.IgnoreTimeDilation none false false
     3 1 1 (by decide) (by decide) (by decide) (by decide)⟩

/-- Claim C2: within the mutation pass of one tick, a record in the
InitialDelay phase whose advanced phaseElapsed reaches
`initialDelay − ε` transitions to Running with phaseElapsed 0 and is not
marked due to fire this tick; and the phase-math path marks a record due
to fire only when it was in the Running phase, with the advanced
phaseElapsed satisfying `phaseElapsed + ε ≥ duration`. -/
theorem C2_transition_fire_exclusive :
    (∀ (d g : ℚ) (b : Bool) (T : FEnhancedTimerData),
      T.bPaused = false → (b && !T.bAffectedByGamePause) = false →
      T.bNextTick = false →
      T.Phase = ETimerPhase.InitialDelay →
      T.InitialDelay ≤
        T.PhaseElapsed + T.GetEffectiveDelta d g + KINDA_SMALL_NUMBER →
      tickMutateOne d g b T =
        ({ T with Phase := ETimerPhase.Running, PhaseElapsed := 0 },
         false)) ∧
    (∀ (d g : ℚ) (b : Bool) (T : FEnhancedTimerData),
      (tickMutateOne d g b T).2 = true →
      T.Phase = ETimerPhase.Running ∧
      (tickMutateOne d g b T).1.Phase = ETimerPhase.Running ∧
      (tickMutateOne d g b T).1.PhaseElapsed =
        T.PhaseElapsed + T.GetEffectiveDelta d g ∧
      T.Duration ≤
        (tickMutateOne d g b T).1.PhaseElapsed + KINDA_SMALL_NUMBER) := by
  constructor
  · intro d g b T hp hg hn hphase hreach
    unfold tickMutateOne
    rw [hp, hg, hn]
    simp only [Bool.false_eq_true, if_false]
    unfold FEnhancedTimerData.Advance FEnhancedTimerData.TryTransitFromDelay
    have hcond : ({ T with
        PhaseElapsed := T.PhaseElapsed + T.GetEffectiveDelta d g
      } : FEnhancedTimerData).Phase = ETimerPhase.InitialDelay ∧
        ({ T with
          PhaseElapsed := T.PhaseElapsed + T.GetEffectiveDelta d g
        } : FEnhancedTimerData).InitialDelay ≤
          ({ T with
            PhaseElapsed := T.PhaseElapsed + T.GetEffectiveDelta d g
          } : FEnhancedTimerData).PhaseElapsed + KINDA_SMALL_NUMBER := by
      exact ⟨hphase, hreach⟩
    rw [if_pos hcond]
    simp
    exact ⟨hp, hn⟩
  · intro d g b T hfire
    unfold tickMutateOne at hfire ⊢
    by_cases hp : T.bPaused
    · rw [if_pos hp] at hfire
      exact absurd hfire (by simp)
    · rw [if_neg hp] at hfire ⊢
      by_cases hg : (b && !T.bAffectedByGamePause) = true
      · rw [if_pos hg] at hfire
        exact absurd hfire (by simp)
      · rw [if_neg hg] at hfire ⊢
        by_cases hn : T.bNextTick
        · rw [if_pos hn] at hfire
          exact absurd hfire (by simp)
        · rw [if_neg hn] at hfire ⊢
          simp only [FEnhancedTimerData.Advance,
            FEnhancedTimerData.TryTransitFromDelay] at hfire ⊢
          by_cases htr : ({ T with
              PhaseElapsed := T.PhaseElapsed + T.GetEffectiveDelta d g
            } : FEnhancedTimerData).Phase = ETimerPhase.InitialDelay ∧
              ({ T with
                PhaseElapsed := T.PhaseElapsed + T.GetEffectiveDelta d g
              } : FEnhancedTimerData).InitialDelay ≤
                ({ T with
                  PhaseElapsed :=
                    T.PhaseElapsed + T.GetEffectiveDelta d g
                } : FEnhancedTimerData).PhaseElapsed +
                  KINDA_SMALL_NUMBER
          · rw [if_pos htr] at hfire
            exact absurd hfire (by simp)
          · rw [if_neg htr] at hfire ⊢
            simp only [Bool.false_eq_true, if_false] at hfire ⊢
            simp only [FEnhancedTimerData.ShouldFire,
              decide_eq_true_eq] at hfire ⊢
            exact ⟨hfire.1, hfire.1, trivial, hfire.2⟩

theorem C2_transition_fire_exclusive_witness :
    (tickMutateOne 2 1 false
        { sampleData with
          Phase := ETimerPhase.InitialDelay, InitialDelay := 1,
          Duration := 5 } =
      ({ { sampleData with
           Phase := ETimerPhase.InitialDelay, InitialDelay := 1,
           Duration := 5 } with
         Phase := ETimerPhase.Running, PhaseElapsed := 0 }, false)) ∧
    (({ sampleData with PhaseElapsed := 2 } :
        FEnhancedTimerData).Phase = ETimerPhase.Running ∧
      (tickMutateOne 0 1 false
        { sampleData with PhaseElapsed := 2 }).1.Phase =
        ETimerPhase.Running ∧
      (tickMutateOne 0 1 false
        { sampleData with PhaseElapsed := 2 }).1.PhaseElapsed =
        ({ sampleData with PhaseElapsed := 2 } :
          FEnhancedTimerData).PhaseElapsed +
          ({ sampleData with PhaseElapsed := 2 } :
            FEnhancedTimerData).GetEffectiveDelta 0 1 ∧
      ({ sampleData with PhaseElapsed := 2 } :
          FEnhancedTimerData).Duration ≤
        (tickMutateOne 0 1 false
          { sampleData with PhaseElapsed := 2 }).1.PhaseElapsed +
          KINDA_SMALL_NUMBER) :=
  ⟨C2_transition_fire_exclusive.1 2 1 false
      { sampleData with
        Phase := ETimerPhase.InitialDelay, InitialDelay := 1,
        Duration := 5 }
      rfl rfl rfl rfl
      (by norm_num [FEnhancedTimerData.GetEffectiveDelta, sampleData,
        KINDA_SMALL_NUMBER]),
   C2_transition_fire_exclusive.2 0 1 false
      { sampleData with PhaseElapsed := 2 }
      (by norm_num [tickMutateOne, sampleData,
        FEnhancedTimerData.GetEffectiveDelta, FEnhancedTimerData.Advance,
        FEnhancedTimerData.TryTransitFromDelay,
        FEnhancedTimerData.ShouldFire, KINDA_SMALL_NUMBER,
        (show ¬(ETimerPhase.Running = ETimerPhase.InitialDelay) from
          by decide)])⟩

lemma SetEnhancedTimerData_Id (Id : Nat) (dur : ℚ)
    (mode : EEnhancedTimerTimeDilationMode) (src : Option ℚ)
    (immune lp : Bool) (delay var r : ℚ) :
    (SetEnhancedTimerData Id dur mode src immune lp delay var r).Id = Id := by
  unfold SetEnhancedTimerData
  dsimp only
  split_ifs <;> rfl

lemma SetEnhancedTimerData_PhaseElapsed (Id : Nat) (dur : ℚ)
    (mode : EEnhancedTimerTimeDilationMode) (src : Option ℚ)
    (immune lp : Bool) (delay var r : ℚ) :
    (SetEnhancedTimerData Id dur mode src immune lp delay var
      r).PhaseElapsed = 0 := by
  unfold SetEnhancedTimerData
  dsimp only
  split_ifs <;> rfl

lemma SetEnhancedTimerData_bPaused (Id : Nat) (dur : ℚ)
    (mode : EEnhancedTimerTimeDilationMode) (src : Option ℚ)
    (immune lp : Bool) (delay var r : ℚ) :
    (SetEnhancedTimerData Id dur mode src immune lp delay var
      r).bPaused = false := by
  unfold SetEnhancedTimerData
  dsimp only
  split_ifs <;> rfl

lemma SetEnhancedTimerData_Duration (Id : Nat) (dur : ℚ)
    (mode : EEnhancedTimerTimeDilationMode) (src : Option ℚ)
    (immune lp : Bool) (delay var r : ℚ) :
    (SetEnhancedTimerData Id dur mode src immune lp delay var
      r).Duration = max 0 dur := by
  unfold SetEnhancedTimerData
  dsimp only
  split_ifs <;> rfl

lemma SetEnhancedTimerData_phase_iff (Id : Nat) (dur : ℚ)
    (mode : EEnhancedTimerTimeDilationMode) (src : Option ℚ)
    (immune lp : Bool) (delay var r : ℚ) :
    ((SetEnhancedTimerData Id dur mode src immune lp delay var r).Phase =
      ETimerPhase.InitialDelay ↔
      0 < (SetEnhancedTimerData Id dur mode src immune lp delay var
        r).InitialDelay) := by
  unfold SetEnhancedTimerData
  dsimp only
  split_ifs with h1 h2
  · exact ⟨fun _ => h2, fun _ => rfl⟩
  · exact ⟨fun h => absurd h (by decide), fun h => absurd h h2⟩
  · exact ⟨fun h => absurd h (by decide), fun h => absurd h (lt_irrefl 0)⟩

/-- Claim C10: every record inserted by a creation operation (native or
reflection-bound, normal or next-tick) satisfies at insertion time:
id ≠ 0 (given the allocator invariant `NextId ≠ 0`), phaseElapsed = 0,
explicitlyPaused = false, stored duration = max 0 (requested duration)
(the next-tick constructors store the fixed duration 0), and
phase = InitialDelay exactly when initialDelay > 0. -/
theorem C10_insertion_invariants :
    (∀ (s : SubsystemState) (dur : ℚ)
      (mode : EEnhancedTimerTimeDilationMode) (src : Option ℚ)
      (immune lp : Bool) (delay var r : ℚ), s.NextId ≠ 0 →
      (SetEnhancedTimer s dur mode src immune lp delay var r).1.Timers =
        s.Timers ++ [(s.NextId,
          SetEnhancedTimerData s.NextId dur mode src immune lp delay var
            r)] ∧
      (SetEnhancedTimerData s.NextId dur mode src immune lp delay var
        r).Id ≠ 0 ∧
      (SetEnhancedTimerData s.NextId dur mode src immune lp delay var
        r).PhaseElapsed = 0 ∧
      (SetEnhancedTimerData s.NextId dur mode src immune lp delay var
        r).bPaused = false ∧
      (SetEnhancedTimerData s.NextId dur mode src immune lp delay var
        r).Duration = max 0 dur ∧
      ((SetEnhancedTimerData s.NextId dur mode src immune lp delay var
        r).Phase = ETimerPhase.InitialDelay ↔
        0 < (SetEnhancedTimerData s.NextId dur mode src immune lp delay
          var r).InitialDelay)) ∧
    (∀ (s : SubsystemState) (dur : ℚ)
      (mode : EEnhancedTimerTimeDilationMode) (src : Option ℚ)
      (immune lp : Bool) (delay var r : ℚ), s.NextId ≠ 0 →
      (SetEnhancedTimer_BP s dur mode src immune lp delay var r).1.Timers =
        s.Timers ++ [(s.NextId,
          SetEnhancedTimerData_BP s.NextId dur mode src immune lp delay
            var r)] ∧
      (SetEnhancedTimerData_BP s.NextId dur mode src immune lp delay var
        r).Id ≠ 0 ∧
      (SetEnhancedTimerData_BP s.NextId dur mode src immune lp delay var
        r).PhaseElapsed = 0 ∧
      (SetEnhancedTimerData_BP s.NextId dur mode src immune lp delay var
        r).bPaused = false ∧
      (SetEnhancedTimerData_BP s.NextId dur mode src immune lp delay var
        r).Duration = max 0 dur ∧
      ((SetEnhancedTimerData_BP s.NextId dur mode src immune lp delay var
        r).Phase = ETimerPhase.InitialDelay ↔
        0 < (SetEnhancedTimerData_BP s.NextId dur mode src immune lp
          delay var r).InitialDelay)) ∧
    (∀ (s : SubsystemState), s.NextId ≠ 0 →
      (SetEnhancedTimerExecutedInNextTick s).1.Timers =
        s.Timers ++ [(s.NextId, NextTickData s.NextId)] ∧
      (NextTickData s.NextId).Id ≠ 0 ∧
      (NextTickData s.NextId).PhaseElapsed = 0 ∧
      (NextTickData s.NextId).bPaused = false ∧
      (NextTickData s.NextId).Duration = 0 ∧
      ((NextTickData s.NextId).Phase = ETimerPhase.InitialDelay ↔
        0 < (NextTickData s.NextId).InitialDelay)) ∧
    (∀ (s : SubsystemState), s.NextId ≠ 0 →
      (SetEnhancedTimerExecutedInNextTick_BP s).1.Timers =
        s.Timers ++ [(s.NextId, NextTickData_BP s.NextId)] ∧
      (NextTickData_BP s.NextId).Id ≠ 0 ∧
      (NextTickData_BP s.NextId).PhaseElapsed = 0 ∧
      (NextTickData_BP s.NextId).bPaused = false ∧
      (NextTickData_BP s.NextId).Duration = 0 ∧
      ((NextTickData_BP s.NextId).Phase = ETimerPhase.InitialDelay ↔
        0 < (NextTickData_BP s.NextId).InitialDelay)) := by
  refine ⟨?_, ?_, ?_, ?_⟩
  · intro s dur mode src immune lp delay var r hnz
    refine ⟨rfl, ?_, SetEnhancedTimerData_PhaseElapsed _ _ _ _ _ _ _ _ _,
      SetEnhancedTimerData_bPaused _ _ _ _ _ _ _ _ _,
      SetEnhancedTimerData_Duration _ _ _ _ _ _ _ _ _,
      SetEnhancedTimerData_phase_iff _ _ _ _ _ _ _ _ _⟩
    rw [SetEnhancedTimerData_Id]
    exact hnz
  · intro s dur mode src immune lp delay var r hnz
    refine ⟨rfl, ?_, SetEnhancedTimerData_PhaseElapsed _ _ _ _ _ _ _ _ _,
      SetEnhancedTimerData_bPaused _ _ _ _ _ _ _ _ _,
      SetEnhancedTimerData_Duration _ _ _ _ _ _ _ _ _,
      SetEnhancedTimerData_phase_iff _ _ _ _ _ _ _ _ _⟩
    have : (SetEnhancedTimerData_BP s.NextId dur mode src immune lp delay
        var r).Id =
        (SetEnhancedTimerData s.NextId dur mode src immune lp delay var
          r).Id := rfl
    rw [this, SetEnhancedTimerData_Id]
    exact hnz
  · intro s hnz
    exact ⟨rfl, hnz, rfl, rfl, rfl,
      ⟨fun h => ETimerPhase.noConfusion h,
       fun h => absurd h (lt_irrefl 0)⟩⟩
  · intro s hnz
    exact ⟨rfl, hnz, rfl, rfl, rfl,
      ⟨fun h => ETimerPhase.noConfusion h,
       fun h => absurd h (lt_irrefl 0)⟩⟩

theorem C10_insertion_invariants_witness :
    ((SetEnhancedTimer InitialState (-3)
        EEnhancedTimerTimeDilationMode.IgnoreTimeDilation none false false
        0 0 0).1.Timers =
      InitialState.Timers ++ [(InitialState.NextId,
        SetEnhancedTimerData InitialState.NextId (-3)
          EEnhancedTimerTimeDilationMode.IgnoreTimeDilation none false
          false 0 0 0)] ∧
      (SetEnhancedTimerData InitialState.NextId (-3)
        EEnhancedTimerTimeDilationMode.IgnoreTimeDilation none false false
        0 0 0).Id ≠ 0 ∧
      (SetEnhancedTimerData InitialState.NextId (-3)
        EEnhancedTimerTimeDilationMode.IgnoreTimeDilation none false false
        0 0 0).PhaseElapsed = 0 ∧
      (SetEnhancedTimerData InitialState.NextId (-3)
        EEnhancedTimerTimeDilationMode.IgnoreTimeDilation none false false
        0 0 0).bPaused = false ∧
      (SetEnhancedTimerData InitialState.NextId (-3)
        EEnhancedTimerTimeDilationMode.IgnoreTimeDilation none false false
        0 0 0).Duration = max 0 (-3) ∧
      ((SetEnhancedTimerData InitialState.NextId (-3)
        EEnhancedTimerTimeDilationMode.IgnoreTimeDilation none false false
        0 0 0).Phase = ETimerPhase.InitialDelay ↔
        0 < (SetEnhancedTimerData InitialState.NextId (-3)
          EEnhancedTimerTimeDilationMode.IgnoreTimeDilation none false
          false 0 0 0).InitialDelay)) ∧
    ((SetEnhancedTimerExecutedInNextTick InitialState).1.Timers =
      InitialState.Timers ++
        [(InitialState.NextId, NextTickData InitialState.NextId)] ∧
      (NextTickData InitialState.NextId).Id ≠ 0 ∧
      (NextTickData InitialState.NextId).PhaseElapsed = 0 ∧
      (NextTickData InitialState.NextId).bPaused = false ∧
      (NextTickData InitialState.NextId).Duration = 0 ∧
      ((NextTickData InitialState.NextId).Phase =
        ETimerPhase.InitialDelay ↔
        0 < (NextTickData InitialState.NextId).InitialDelay)) :=
  ⟨C10_insertion_invariants.1 InitialState (-3)
     EEnhancedTimerTimeDilationMode.IgnoreTimeDilation none false false
     0 0 0 (by decide),
   C10_insertion_invariants.2.2.1 InitialState (by decide)⟩

lemma AllocateId_NextId_ne_zero (s : SubsystemState)
    (_h : s.NextId ≠ 0) : (AllocateId s).2.NextId ≠ 0 := by
  unfold AllocateId
  dsimp only
  split_ifs with h1
  · exact one_ne_zero
  · exact h1

lemma idTrace_ne_zero (ops : List IdOp) :
    ∀ (s : SubsystemState), s.NextId ≠ 0 →
      ∀ i ∈ (idTrace ops s).1, i ≠ 0 := by
  induction ops with
  | nil =>
      intro s _ i hi
      simp [idTrace] at hi
  | cons op rest ih =>
      intro s hnz i hi
      cases op with
      | Alloc =>
          simp only [idTrace] at hi
          rcases List.mem_cons.mp hi with h | h
          · rw [h]
            exact hnz
          · exact ih (AllocateId s).2 (AllocateId_NextId_ne_zero s hnz) i h
      | Deinit =>
          simp only [idTrace] at hi
          exact ih (DeinitializeState s) one_ne_zero i hi

lemma idTrace_replicate_alloc (k : Nat) :
    ∀ (s : SubsystemState), 1 ≤ s.NextId →
      s.NextId + k ≤ UINT64_MOD →
      (idTrace (List.replicate k IdOp.Alloc) s).1 =
        List.range' s.NextId k := by
  induction k with
  | zero =>
      intro s _ _
      simp [idTrace]
  | succ k ih =>
      intro s h1 h2
      rw [List.replicate_succ]
      simp only [idTrace]
      by_cases htop : s.NextId + 1 = UINT64_MOD
      · have hk0 : k = 0 := by omega
        subst hk0
        simp [idTrace, List.range']
        rfl
      · have hlt : s.NextId + 1 < UINT64_MOD := by omega
        have hNext : (AllocateId s).2.NextId = s.NextId + 1 := by
          unfold AllocateId
          dsimp only
          rw [Nat.mod_eq_of_lt hlt]
          rw [if_neg (by omega)]
        rw [ih (AllocateId s).2 (by omega) (by rw [hNext]; omega)]
        rw [hNext]
        rfl

/-- Claim C6 counterexample: the claim asserts that over the process
lifetime, including across Deinitialize/Initialize cycles, all generated
ids are pairwise distinct; but Deinitialize resets the counter to 1, so
the trace allocate–deinitialize–allocate yields id 1 twice. -/
theorem C6_id_uniqueness_counterexample :
    (idTrace [IdOp.Alloc, IdOp.Deinit, IdOp.Alloc] InitialState).1 =
      [1, 1] ∧
    ¬ (idTrace [IdOp.Alloc, IdOp.Deinit, IdOp.Alloc]
        InitialState).1.Nodup := by
  decide

/-- Claim C6 (amended): the generator never yields 0 along any
allocation/deinitialize history started from the initialized subsystem;
and within one Initialize/Deinitialize lifecycle, as long as the 64-bit
counter space is not exhausted, consecutive allocations yield the
consecutive ids NextId, NextId+1, … — pairwise distinct and nonzero.
(Across Deinitialize/Initialize cycles, and after a counter wrap, ids
repeat, contrary to the original claim.) -/
theorem C6_id_invariants_amended :
    (∀ (ops : List IdOp), ∀ i ∈ (idTrace ops InitialState).1, i ≠ 0) ∧
    (∀ (s : SubsystemState) (k : Nat), 1 ≤ s.NextId →
      s.NextId + k ≤ UINT64_MOD →
      (idTrace (List.replicate k IdOp.Alloc) s).1 =
        List.range' s.NextId k ∧
      (idTrace (List.replicate k IdOp.Alloc) s).1.Nodup ∧
      ∀ i ∈ (idTrace (List.replicate k IdOp.Alloc) s).1, i ≠ 0) := by
  constructor
  · intro ops
    exact idTrace_ne_zero ops InitialState one_ne_zero
  · intro s k h1 h2
    have heq := idTrace_replicate_alloc k s h1 h2
    refine ⟨heq, ?_, ?_⟩
    · rw [heq]
      apply List.nodup_range'
      exact Nat.zero_lt_one
    · intro i hi
      rw [heq] at hi
      have := List.mem_range'_1.mp hi
      omega

theorem C6_id_invariants_amended_witness :
    (∀ i ∈ (idTrace [IdOp.Alloc, IdOp.Alloc] InitialState).1, i ≠ 0) ∧
    ((idTrace (List.replicate 3 IdOp.Alloc) InitialState).1 =
      List.range' InitialState.NextId 3 ∧
     (idTrace (List.replicate 3 IdOp.Alloc) InitialState).1.Nodup ∧
     ∀ i ∈ (idTrace (List.replicate 3 IdOp.Alloc) InitialState).1,
       i ≠ 0) :=
  ⟨C6_id_invariants_amended.1 [IdOp.Alloc, IdOp.Alloc],
   C6_id_invariants_amended.2 InitialState 3 (by decide)
     (by norm_num [InitialState, UINT64_MOD])⟩

lemma findTimer_updateTimer (l : TimerStore) (k id : Nat)
    (f : FEnhancedTimerData → FEnhancedTimerData) :
    findTimer (updateTimer l k f) id =
      if id = k then (findTimer l id).map f else findTimer l id := by
  induction l with
  | nil =>
      simp [updateTimer, findTimer]
  | cons p rest ih =>
      simp only [updateTimer, List.map] at ih ⊢
      by_cases hpk : p.1 = k
      · rw [if_pos hpk]
        by_cases hpi : p.1 = id
        · simp only [findTimer, if_pos hpi]
          rw [if_pos (hpi ▸ hpk ▸ rfl : id = k)]
          simp
        · simp only [findTimer, if_neg hpi]
          exact ih
      · rw [if_neg hpk]
        by_cases hpi : p.1 = id
        · have hik : ¬ id = k := fun h => hpk (hpi.symm ▸ h ▸ rfl)
          simp only [findTimer, if_pos hpi]
          rw [if_neg hik]
        · simp only [findTimer, if_neg hpi]
          exact ih

lemma mutationPass_fst (d g : ℚ) (b : Bool) (l : TimerStore) :
    (mutationPass d g b l).1 =
      l.map (fun p => (p.1, (tickMutateOne d g b p.2).1)) := by
  induction l with
  | nil => simp [mutationPass]
  | cons p rest ih =>
      simp only [mutationPass, List.map]
      exact congrArg _ ih

lemma findTimer_mutationPass (d g : ℚ) (b : Bool) (l : TimerStore)
    (id : Nat) :
    findTimer (mutationPass d g b l).1 id =
      (findTimer l id).map (fun T => (tickMutateOne d g b T).1) := by
  induction l with
  | nil => simp [mutationPass, findTimer]
  | cons p rest ih =>
      simp only [mutationPass, findTimer]
      by_cases hpi : p.1 = id
      · rw [if_pos hpi, if_pos hpi]
        rfl
      · rw [if_neg hpi, if_neg hpi]
        exact ih

lemma findTimer_mapVal (l : TimerStore) (id : Nat)
    (f : FEnhancedTimerData → FEnhancedTimerData) :
    findTimer (l.map (fun p => (p.1, f p.2))) id =
      (findTimer l id).map f := by
  induction l with
  | nil => simp [findTimer]
  | cons p rest ih =>
      simp only [List.map, findTimer]
      by_cases hpi : p.1 = id
      · simp [if_pos hpi]
      · simp only [if_neg hpi]
        exact ih

lemma mem_mutationPass_snd (d g : ℚ) (b : Bool) (l : TimerStore)
    (id : Nat) (h : id ∈ (mutationPass d g b l).2) :
    ∃ T, (id, T) ∈ l ∧ (tickMutateOne d g b T).2 = true := by
  induction l with
  | nil => simp [mutationPass] at h
  | cons p rest ih =>
      simp only [mutationPass] at h
      by_cases hf : (tickMutateOne d g b p.2).2 = true
      · rw [if_pos hf] at h
        rcases List.mem_cons.mp h with h1 | h1
        · exact ⟨p.2, by simp [h1], hf⟩
        · rcases ih h1 with ⟨T, hT, hfT⟩
          exact ⟨T, List.mem_cons_of_mem _ hT, hfT⟩
      · rw [if_neg hf] at h
        rcases ih h with ⟨T, hT, hfT⟩
        exact ⟨T, List.mem_cons_of_mem _ hT, hfT⟩

lemma mem_prescanPass (b : Bool) (l : TimerStore) (id : Nat)
    (h : id ∈ prescanPass b l) :
    ∃ T, (id, T) ∈ l ∧ T.bPaused = false ∧
      (b && !T.bAffectedByGamePause) = false ∧ T.bNextTick = true := by
  induction l with
  | nil => simp [prescanPass] at h
  | cons p rest ih =>
      simp only [prescanPass] at h
      by_cases hp : p.2.bPaused
      · rw [if_pos hp] at h
        rcases ih h with ⟨T, hT, rest'⟩
        exact ⟨T, List.mem_cons_of_mem _ hT, rest'⟩
      · rw [if_neg hp] at h
        by_cases hg : (b && !p.2.bAffectedByGamePause) = true
        · rw [if_pos hg] at h
          rcases ih h with ⟨T, hT, rest'⟩
          exact ⟨T, List.mem_cons_of_mem _ hT, rest'⟩
        · rw [if_neg hg] at h
          by_cases hn : p.2.bNextTick
          · rw [if_pos hn] at h
            rcases List.mem_cons.mp h with h1 | h1
            · refine ⟨p.2, by simp [h1], ?_, ?_, hn⟩
              · exact Bool.of_not_eq_true hp
              · exact Bool.of_not_eq_true hg
            · rcases ih h1 with ⟨T, hT, rest'⟩
              exact ⟨T, List.mem_cons_of_mem _ hT, rest'⟩
          · rw [if_neg hn] at h
            rcases ih h with ⟨T, hT, rest'⟩
            exact ⟨T, List.mem_cons_of_mem _ hT, rest'⟩

lemma findTimer_of_nodup_mem (l : TimerStore) (id : Nat)
    (T : FEnhancedTimerData) (hnd : (l.map Prod.fst).Nodup)
    (hmem : (id, T) ∈ l) : findTimer l id = some T := by
  induction l with
  | nil => simp at hmem
  | cons p rest ih =>
      rcases List.mem_cons.mp hmem with h1 | h1
      · simp only [findTimer]
        rw [if_pos (by rw [← h1])]
        rw [← h1]
      · rw [List.map_cons] at hnd
        have hkey : id ∈ rest.map Prod.fst :=
          List.mem_map.mpr ⟨(id, T), h1, rfl⟩
        have hne : p.1 ≠ id := by
          intro he
          exact (List.nodup_cons.mp hnd).1 (he ▸ hkey)
        simp only [findTimer, if_neg hne]
        exact ih (List.nodup_cons.mp hnd).2 h1

lemma executeFiredLoop_untouched (ids : List Nat) :
    ∀ (l : TimerStore) (rem inv : List Nat) (id : Nat), id ∉ ids →
      findTimer (executeFiredLoop ids l rem inv).1 id = findTimer l id ∧
      (id ∉ rem → id ∉ (executeFiredLoop ids l rem inv).2.1) ∧
      (id ∈ (executeFiredLoop ids l rem inv).2.2 → id ∈ inv) := by
  induction ids with
  | nil =>
      intro l rem inv id _
      exact ⟨rfl, fun h => h, fun h => h⟩
  | cons Id rest ih =>
      intro l rem inv id hid
      have hne : id ≠ Id := fun h => hid (h ▸ List.mem_cons_self _ _)
      have hrest : id ∉ rest := fun h => hid (List.mem_cons_of_mem _ h)
      simp only [executeFiredLoop]
      cases hfind : findTimer l Id with
      | none => exact ih l rem inv id hrest
      | some M =>
          dsimp only
          by_cases hloop : M.bLoop
          · rw [if_pos hloop]
            have h3 := ih (updateTimer l Id resetLoopFire) rem
              (inv ++ [Id]) id hrest
            refine ⟨?_, h3.2.1, ?_⟩
            · rw [h3.1, findTimer_updateTimer, if_neg hne]
            · intro hmem
              rcases List.mem_append.mp (h3.2.2 hmem) with h | h
              · exact h
              · exact absurd (List.mem_singleton.mp h) hne
          · rw [if_neg hloop]
            have h3 := ih l (rem ++ [Id]) (inv ++ [Id]) id hrest
            refine ⟨h3.1, ?_, ?_⟩
            · intro hnr
              apply h3.2.1
              intro hmem
              rcases List.mem_append.mp hmem with h | h
              · exact hnr h
              · exact hne (List.mem_singleton.mp h)
            · intro hmem
              rcases List.mem_append.mp (h3.2.2 hmem) with h | h
              · exact h
              · exact absurd (List.mem_singleton.mp h) hne

lemma executeFiredLoop_loop_keep (ids : List Nat) :
    ∀ (l : TimerStore) (rem inv : List Nat) (id : Nat)
      (T : FEnhancedTimerData),
      findTimer l id = some T → T.bLoop = true → id ∉ rem →
      (id ∈ inv → T.Phase = ETimerPhase.Running ∧ T.PhaseElapsed = 0 ∧
        T.bNextTick = false) →
      ∃ T', findTimer (executeFiredLoop ids l rem inv).1 id = some T' ∧
        T'.bLoop = true ∧
        id ∉ (executeFiredLoop ids l rem inv).2.1 ∧
        (id ∈ (executeFiredLoop ids l rem inv).2.2 →
          T'.Phase = ETimerPhase.Running ∧ T'.PhaseElapsed = 0 ∧
          T'.bNextTick = false) := by
  induction ids with
  | nil =>
      intro l rem inv id T hfind hloop hrem hinv
      exact ⟨T, hfind, hloop, hrem, hinv⟩
  | cons Id rest ih =>
      intro l rem inv id T hfind hloop hrem hinv
      simp only [executeFiredLoop]
      cases hfindId : findTimer l Id with
      | none => exact ih l rem inv id T hfind hloop hrem hinv
      | some M =>
          dsimp only
          by_cases hloopM : M.bLoop
          · rw [if_pos hloopM]
            by_cases heq : id = Id
            · subst heq
              have hMT : M = T := by
                rw [hfind] at hfindId
                exact (Option.some_inj.mp hfindId).symm
              apply ih (updateTimer l id resetLoopFire) rem (inv ++ [id])
                id (resetLoopFire T)
              · rw [findTimer_updateTimer, if_pos rfl, hfind]
                rfl
              · simpa [resetLoopFire] using hloop
              · exact hrem
              · intro _
                simp [resetLoopFire]
            · apply ih (updateTimer l Id resetLoopFire) rem (inv ++ [Id])
                id T
              · rw [findTimer_updateTimer, if_neg heq, hfind]
              · exact hloop
              · exact hrem
              · intro hmem
                rcases List.mem_append.mp hmem with h | h
                · exact hinv h
                · exact absurd (List.mem_singleton.mp h) heq
          · rw [if_neg hloopM]
            have heq : id ≠ Id := by
              intro he
              rw [he, hfindId] at hfind
              have : M = T := Option.some_inj.mp hfind
              exact hloopM (this ▸ hloop)
            apply ih l (rem ++ [Id]) (inv ++ [Id]) id T hfind hloop
            · intro hmem
              rcases List.mem_append.mp hmem with h | h
              · exact hrem h
              · exact heq (List.mem_singleton.mp h)
            · intro hmem
              rcases List.mem_append.mp hmem with h | h
              · exact hinv h
              · exact absurd (List.mem_singleton.mp h) heq

lemma findTimer_filter_not_removed (l : TimerStore) (rem : List Nat)
    (id : Nat) (h : id ∉ rem) :
    findTimer (l.filter (fun p => decide (p.1 ∉ rem))) id =
      findTimer l id := by
  induction l with
  | nil => simp [findTimer]
  | cons p rest ih =>
      by_cases hpmem : p.1 ∈ rem
      · have hpi : p.1 ≠ id := fun he => h (he ▸ hpmem)
        rw [List.filter_cons_of_neg (by simpa using hpmem)]
        rw [ih]
        simp only [findTimer, if_neg hpi]
      · rw [List.filter_cons_of_pos (by simpa using hpmem)]
        simp only [findTimer]
        by_cases hpi : p.1 = id
        · rw [if_pos hpi, if_pos hpi]
        · rw [if_neg hpi, if_neg hpi]
          exact ih

lemma Cleanup_findTimer (s : SubsystemState) (id : Nat)
    (hrem : id ∉ s.ToRemove) (hun : s.ToUnpause = []) :
    findTimer (Cleanup s).Timers id = findTimer s.Timers id := by
  unfold Cleanup
  by_cases hempty : s.ToRemove = [] ∧ s.ToUnpause = []
  · rw [if_pos hempty]
  · rw [if_neg hempty]
    dsimp only
    rw [hun]
    simp only [List.foldl_nil]
    exact findTimer_filter_not_removed s.Timers s.ToRemove id hrem

lemma tickMutateOne_skip (d g : ℚ) (b : Bool) (T : FEnhancedTimerData)
    (h : T.bPaused = true ∨ (b && !T.bAffectedByGamePause) = true ∨
      T.bNextTick = true) :
    tickMutateOne d g b T = (T, false) := by
  unfold tickMutateOne
  rcases h with h | h | h
  · rw [if_pos h]
  · by_cases hp : T.bPaused
    · rw [if_pos hp]
    · rw [if_neg hp, if_pos h]
  · by_cases hp : T.bPaused
    · rw [if_pos hp]
    · rw [if_neg hp]
      by_cases hg : (b && !T.bAffectedByGamePause) = true
      · rw [if_pos hg]
      · rw [if_neg hg, if_pos h]

lemma tickMutateOne_fields (d g : ℚ) (b : Bool)
    (T : FEnhancedTimerData) :
    (tickMutateOne d g b T).1.Id = T.Id ∧
    (tickMutateOne d g b T).1.bUseDynamic = T.bUseDynamic ∧
    (tickMutateOne d g b T).1.bLoop = T.bLoop ∧
    (tickMutateOne d g b T).1.bPaused = T.bPaused ∧
    (tickMutateOne d g b T).1.bAffectedByGamePause =
      T.bAffectedByGamePause ∧
    (tickMutateOne d g b T).1.bNextTick = T.bNextTick ∧
    (tickMutateOne d g b T).1.Duration = T.Duration ∧
    (tickMutateOne d g b T).1.InitialDelay = T.InitialDelay ∧
    (tickMutateOne d g b T).1.DilationMode = T.DilationMode ∧
    (tickMutateOne d g b T).1.DilationActor = T.DilationActor := by
  unfold tickMutateOne FEnhancedTimerData.Advance
    FEnhancedTimerData.TryTransitFromDelay
  dsimp only
  split_ifs <;>
    exact ⟨rfl, rfl, rfl, rfl, rfl, rfl, rfl, rfl, rfl, rfl⟩

lemma Tick_eq_of_WorldValid (env : TickEnv) (d : ℚ) (s : SubsystemState)
    (hW : env.WorldValid = true) :
    Tick env d s =
      (Cleanup { s with
          Timers := (tickExec env d s).1, FiredThisTick := [],
          ToRemove := (tickExec env d s).2.1 },
       (tickExec env d s).2.2) := by
  unfold Tick
  rw [if_pos hW]

lemma tick_frozen (s : SubsystemState) (id : Nat)
    (T : FEnhancedTimerData) (env : TickEnv) (d : ℚ)
    (hF : s.FiredThisTick = []) (hR : s.ToRemove = [])
    (hU : s.ToUnpause = [])
    (hnd : (s.Timers.map Prod.fst).Nodup)
    (hfind : findTimer s.Timers id = some T)
    (hskip : T.bPaused = true ∨
      (env.bPausedNow = true ∧ T.bAffectedByGamePause = false)) :
    findTimer (Tick env d s).1.Timers id = some T ∧
    id ∉ (Tick env d s).2 := by
  have hskip2 :
      tickMutateOne d env.GlobalScale env.bPausedNow T = (T, false) := by
    apply tickMutateOne_skip
    rcases hskip with h | ⟨h1, h2⟩
    · exact Or.inl h
    · exact Or.inr (Or.inl (by rw [h1, h2]; rfl))
  by_cases hW : env.WorldValid
  · rw [Tick_eq_of_WorldValid env d s hW]
    dsimp only
    have hpre : id ∉ prescanPass env.bPausedNow s.Timers := by
      intro hmem
      rcases mem_prescanPass _ _ _ hmem with ⟨T2, hT2mem, hT2p, hT2g, _⟩
      have hf2 : findTimer s.Timers id = some T2 :=
        findTimer_of_nodup_mem _ _ _ hnd hT2mem
      rw [hfind] at hf2
      have hTT : T2 = T := (Option.some_inj.mp hf2).symm
      subst hTT
      rcases hskip with h | ⟨h1, h2⟩
      · rw [hT2p] at h
        exact Bool.false_ne_true h
      · rw [h1, h2] at hT2g
        simp at hT2g
    have hmut : id ∉
        (mutationPass d env.GlobalScale env.bPausedNow s.Timers).2 := by
      intro hmem
      rcases mem_mutationPass_snd _ _ _ _ _ hmem with ⟨T2, hT2mem, hfire⟩
      have hf2 : findTimer s.Timers id = some T2 :=
        findTimer_of_nodup_mem _ _ _ hnd hT2mem
      rw [hfind] at hf2
      have hTT : T2 = T := (Option.some_inj.mp hf2).symm
      subst hTT
      rw [hskip2] at hfire
      exact Bool.false_ne_true hfire
    have hfired : id ∉ tickFired env d s := by
      intro hmem
      unfold tickFired at hmem
      rcases List.mem_append.mp hmem with hmem1 | hmem1
      · rcases List.mem_append.mp hmem1 with hmem2 | hmem2
        · rw [hF] at hmem2
          exact List.not_mem_nil id hmem2
        · exact hpre hmem2
      · exact hmut hmem1
    have hfindmut : findTimer
        (mutationPass d env.GlobalScale env.bPausedNow s.Timers).1 id =
        some T := by
      rw [findTimer_mutationPass, hfind]
      simp [hskip2]
    have hu := executeFiredLoop_untouched (tickFired env d s)
      (mutationPass d env.GlobalScale env.bPausedNow s.Timers).1
      s.ToRemove [] id hfired
    have hremout : id ∉ (tickExec env d s).2.1 := by
      apply hu.2.1
      rw [hR]
      exact List.not_mem_nil id
    constructor
    · rw [Cleanup_findTimer { s with
          Timers := (tickExec env d s).1, FiredThisTick := [],
          ToRemove := (tickExec env d s).2.1 } id hremout hU]
      show findTimer (tickExec env d s).1 id = some T
      unfold tickExec
      rw [hu.1]
      exact hfindmut
    · intro hmem
      have := hu.2.2 hmem
      exact List.not_mem_nil id this
  · unfold Tick
    rw [if_neg hW]
    exact ⟨hfind, List.not_mem_nil id⟩

/-- Claim C3: an explicitly paused record is entirely unchanged by a
tick and does not fire, regardless of pauseImmune; a record that is not
explicitly paused while the host is paused and pauseImmune is false is
likewise unchanged and does not fire; a pauseImmune record advances
under a paused host exactly as under an unpaused host; and the mutation
pass changes no field other than Phase and PhaseElapsed. -/
theorem C3_pause_composition :
    (∀ (s : SubsystemState) (id : Nat) (T : FEnhancedTimerData)
      (env : TickEnv) (d : ℚ),
      s.FiredThisTick = [] → s.ToRemove = [] → s.ToUnpause = [] →
      (s.Timers.map Prod.fst).Nodup →
      findTimer s.Timers id = some T → T.bPaused = true →
      findTimer (Tick env d s).1.Timers id = some T ∧
      id ∉ (Tick env d s).2) ∧
    (∀ (s : SubsystemState) (id : Nat) (T : FEnhancedTimerData)
      (env : TickEnv) (d : ℚ),
      s.FiredThisTick = [] → s.ToRemove = [] → s.ToUnpause = [] →
      (s.Timers.map Prod.fst).Nodup →
      findTimer s.Timers id = some T → T.bPaused = false →
      env.bPausedNow = true → T.bAffectedByGamePause = false →
      findTimer (Tick env d s).1.Timers id = some T ∧
      id ∉ (Tick env d s).2) ∧
    (∀ (d g : ℚ) (T : FEnhancedTimerData),
      T.bPaused = false → T.bAffectedByGamePause = true →
      tickMutateOne d g true T = tickMutateOne d g false T) ∧
    (∀ (d g : ℚ) (b : Bool) (T : FEnhancedTimerData),
      (tickMutateOne d g b T).1.Id = T.Id ∧
      (tickMutateOne d g b T).1.bUseDynamic = T.bUseDynamic ∧
      (tickMutateOne d g b T).1.bLoop = T.bLoop ∧
      (tickMutateOne d g b T).1.bPaused = T.bPaused ∧
      (tickMutateOne d g b T).1.bAffectedByGamePause =
        T.bAffectedByGamePause ∧
      (tickMutateOne d g b T).1.bNextTick = T.bNextTick ∧
      (tickMutateOne d g b T).1.Duration = T.Duration ∧
      (tickMutateOne d g b T).1.InitialDelay = T.InitialDelay ∧
      (tickMutateOne d g b T).1.DilationMode = T.DilationMode ∧
      (tickMutateOne d g b T).1.DilationActor = T.DilationActor) := by
  refine ⟨?_, ?_, ?_, ?_⟩
  · intro s id T env d hF hR hU hnd hfind hp
    exact tick_frozen s id T env d hF hR hU hnd hfind (Or.inl hp)
  · intro s id T env d hF hR hU hnd hfind _ hhost haff
    exact tick_frozen s id T env d hF hR hU hnd hfind
      (Or.inr ⟨hhost, haff⟩)
  · intro d g T hp haff
    unfold tickMutateOne
    rw [haff]
    simp
  · intro d g b T
    exact tickMutateOne_fields d g b T

theorem C3_pause_composition_witness :
    (findTimer (Tick ⟨true, false, 1⟩ 1
        ⟨[(7, { sampleData with bPaused := true })], [], [], [],
          9⟩).1.Timers 7 =
      some { sampleData with bPaused := true } ∧
      7 ∉ (Tick ⟨true, false, 1⟩ 1
        ⟨[(7, { sampleData with bPaused := true })], [], [], [], 9⟩).2) ∧
    (findTimer (Tick ⟨true, true, 1⟩ 1
        ⟨[(8, sampleData)], [], [], [], 9⟩).1.Timers 8 =
      some sampleData ∧
      8 ∉ (Tick ⟨true, true, 1⟩ 1
        ⟨[(8, sampleData)], [], [], [], 9⟩).2) ∧
    (tickMutateOne 1 1 true
        { sampleData with bAffectedByGamePause := true } =
      tickMutateOne 1 1 false
        { sampleData with bAffectedByGamePause := true }) ∧
    ((tickMutateOne 1 1 false sampleData).1.Id = sampleData.Id ∧
      (tickMutateOne 1 1 false sampleData).1.bUseDynamic =
        sampleData.bUseDynamic ∧
      (tickMutateOne 1 1 false sampleData).1.bLoop = sampleData.bLoop ∧
      (tickMutateOne 1 1 false sampleData).1.bPaused =
        sampleData.bPaused ∧
      (tickMutateOne 1 1 false sampleData).1.bAffectedByGamePause =
        sampleData.bAffectedByGamePause ∧
      (tickMutateOne 1 1 false sampleData).1.bNextTick =
        sampleData.bNextTick ∧
      (tickMutateOne 1 1 false sampleData).1.Duration =
        sampleData.Duration ∧
      (tickMutateOne 1 1 false sampleData).1.InitialDelay =
        sampleData.InitialDelay ∧
      (tickMutateOne 1 1 false sampleData).1.DilationMode =
        sampleData.DilationMode ∧
      (tickMutateOne 1 1 false sampleData).1.DilationActor =
        sampleData.DilationActor) :=
  ⟨C3_pause_composition.1
     ⟨[(7, { sampleData with bPaused := true })], [], [], [], 9⟩
     7 { sampleData with bPaused := true } ⟨true, false, 1⟩ 1
     rfl rfl rfl (by decide) rfl rfl,
   C3_pause_composition.2.1
     ⟨[(8, sampleData)], [], [], [], 9⟩
     8 sampleData ⟨true, true, 1⟩ 1
     rfl rfl rfl (by decide) rfl rfl rfl rfl,
   C3_pause_composition.2.2.1 1 1
     { sampleData with bAffectedByGamePause := true } rfl rfl,
   C3_pause_composition.2.2.2 1 1 false sampleData⟩

/-- Claim C5: a timer created by the next-tick constructor (duration 0,
pause-immune, next-tick flag set, no loop, not explicitly paused) fires
on the first subsequent tick call — for every delta (including 0) and
every host-pause state — and is absent from the store once that tick
completes. -/
theorem C5_next_tick_fires (nid : Nat) (env : TickEnv) (d : ℚ)
    (hW : env.WorldValid = true) :
    (Tick env d
        (SetEnhancedTimerExecutedInNextTick ⟨[], [], [], [], nid⟩).1).2 =
      [(SetEnhancedTimerExecutedInNextTick ⟨[], [], [], [], nid⟩).2.Id] ∧
    findTimer
      (Tick env d
        (SetEnhancedTimerExecutedInNextTick
          ⟨[], [], [], [], nid⟩).1).1.Timers
      (SetEnhancedTimerExecutedInNextTick ⟨[], [], [], [], nid⟩).2.Id =
      none := by
  constructor <;>
    simp [Tick, tickExec, tickFired, SetEnhancedTimerExecutedInNextTick,
      AllocateId, NextTickData, prescanPass, mutationPass, tickMutateOne,
      executeFiredLoop, findTimer, updateTimer, Cleanup, hW]

theorem C5_next_tick_fires_witness :
    ((true : Bool) = true) ∧
    ((Tick ⟨true, true, 1⟩ 0
        (SetEnhancedTimerExecutedInNextTick ⟨[], [], [], [], 5⟩).1).2 =
      [(SetEnhancedTimerExecutedInNextTick ⟨[], [], [], [], 5⟩).2.Id] ∧
    findTimer
      (Tick ⟨true, true, 1⟩ 0
        (SetEnhancedTimerExecutedInNextTick
          ⟨[], [], [], [], 5⟩).1).1.Timers
      (SetEnhancedTimerExecutedInNextTick ⟨[], [], [], [], 5⟩).2.Id =
      none) :=
  ⟨rfl, C5_next_tick_fires 5 ⟨true, true, 1⟩ 0 rfl⟩

lemma tick_empty (env : TickEnv) (d : ℚ) (nid : Nat) :
    Tick env d ⟨[], [], [], [], nid⟩ = (⟨[], [], [], [], nid⟩, []) := by
  by_cases hW : env.WorldValid
  · simp [Tick, tickExec, tickFired, prescanPass, mutationPass,
      executeFiredLoop, Cleanup, hW]
  · simp [Tick, hW]

lemma runTicks_empty (env : TickEnv) (deltas : List ℚ) (nid : Nat) :
    runTicks env deltas ⟨[], [], [], [], nid⟩ =
      (⟨[], [], [], [], nid⟩, []) := by
  induction deltas with
  | nil => rfl
  | cons d rest ih =>
      simp only [runTicks]
      rw [tick_empty]
      dsimp only
      rw [ih]
      rfl

lemma tick_singleton_running (T : FEnhancedTimerData) (id nid : Nat)
    (env : TickEnv) (d e : ℚ)
    (hW : env.WorldValid = true) (hHP : env.bPausedNow = false)
    (hLoop : T.bLoop = false) (hP : T.bPaused = false)
    (hNT : T.bNextTick = false) (hPh : T.Phase = ETimerPhase.Running)
    (hMode : T.DilationMode =
      EEnhancedTimerTimeDilationMode.IgnoreTimeDilation) :
    Tick env d ⟨[(id, { T with PhaseElapsed := e })], [], [], [], nid⟩ =
      if T.Duration ≤ e + d + KINDA_SMALL_NUMBER then
        (⟨[], [], [], [], nid⟩, [id])
      else
        (⟨[(id, { T with PhaseElapsed := e + d })], [], [], [], nid⟩,
         []) := by
  by_cases hfire : T.Duration ≤ e + d + KINDA_SMALL_NUMBER
  · rw [if_pos hfire]
    simp [Tick, tickExec, tickFired, prescanPass, mutationPass,
      tickMutateOne, FEnhancedTimerData.Advance,
      FEnhancedTimerData.TryTransitFromDelay,
      FEnhancedTimerData.ShouldFire, FEnhancedTimerData.GetEffectiveDelta,
      executeFiredLoop, findTimer, updateTimer, Cleanup, hW, hHP, hP,
      hNT, hPh, hMode, hLoop, hfire,
      (show ¬(ETimerPhase.Running = ETimerPhase.InitialDelay) from
        by decide)]
  · rw [if_neg hfire]
    simp [Tick, tickExec, tickFired, prescanPass, mutationPass,
      tickMutateOne, FEnhancedTimerData.Advance,
      FEnhancedTimerData.TryTransitFromDelay,
      FEnhancedTimerData.ShouldFire, FEnhancedTimerData.GetEffectiveDelta,
      executeFiredLoop, findTimer, updateTimer, Cleanup, hW, hHP, hP,
      hNT, hPh, hMode, hLoop, hfire,
      (show ¬(ETimerPhase.Running = ETimerPhase.InitialDelay) from
        by decide)]

lemma oneShot_aux (T : FEnhancedTimerData) (id nid : Nat) (env : TickEnv)
    (hW : env.WorldValid = true) (hHP : env.bPausedNow = false)
    (hLoop : T.bLoop = false) (hP : T.bPaused = false)
    (hNT : T.bNextTick = false) (hPh : T.Phase = ETimerPhase.Running)
    (hMode : T.DilationMode =
      EEnhancedTimerTimeDilationMode.IgnoreTimeDilation) :
    ∀ (deltas : List ℚ) (e : ℚ), deltas ≠ [] →
      T.Duration ≤ e + deltas.sum →
      (runTicks env deltas
        ⟨[(id, { T with PhaseElapsed := e })], [], [], [],
          nid⟩).2.count id = 1 ∧
      findTimer (runTicks env deltas
        ⟨[(id, { T with PhaseElapsed := e })], [], [], [],
          nid⟩).1.Timers id = none := by
  intro deltas
  induction deltas with
  | nil =>
      intro e hne _
      exact absurd rfl hne
  | cons d rest ih =>
      intro e _ hsum
      simp only [runTicks]
      rw [tick_singleton_running T id nid env d e hW hHP hLoop hP hNT hPh
        hMode]
      by_cases hfire : T.Duration ≤ e + d + KINDA_SMALL_NUMBER
      · rw [if_pos hfire]
        dsimp only
        rw [runTicks_empty]
        dsimp only
        constructor
        · simp
        · rfl
      · rw [if_neg hfire]
        dsimp only
        rcases rest with _ | ⟨r, rs⟩
        · exfalso
          have hk := KINDA_SMALL_NUMBER_pos
          simp [List.sum_cons] at hsum
          exact hfire (by linarith)
        · have hsum2 : T.Duration ≤ (e + d) + (r :: rs).sum := by
            rw [List.sum_cons] at hsum
            linarith
          have hres := ih (e + d) (by simp) hsum2
          constructor
          · simpa using hres.1
          · exact hres.2

/-- Claim C1: a non-looping timer with duration D and initialDelay 0,
fed ticks whose deltas sum to at least D (host not paused, Ignore
dilation), has its callback invoked exactly once over the run and is
absent from the store afterwards; and a looping record is never removed
by firing — after a tick in which it fired it is still present, still
looping, with phase Running, phaseElapsed 0 and the next-tick flag
cleared. -/
theorem C1_one_shot_and_loop_reset :
    (∀ (T : FEnhancedTimerData) (id nid : Nat) (env : TickEnv)
      (deltas : List ℚ),
      env.WorldValid = true → env.bPausedNow = false →
      T.bLoop = false → T.bPaused = false → T.bNextTick = false →
      T.Phase = ETimerPhase.Running → T.PhaseElapsed = 0 →
      T.InitialDelay = 0 →
      T.DilationMode =
        EEnhancedTimerTimeDilationMode.IgnoreTimeDilation →
      deltas ≠ [] → T.Duration ≤ deltas.sum →
      (runTicks env deltas ⟨[(id, T)], [], [], [], nid⟩).2.count id =
        1 ∧
      findTimer (runTicks env deltas
        ⟨[(id, T)], [], [], [], nid⟩).1.Timers id = none) ∧
    (∀ (s : SubsystemState) (id : Nat) (T : FEnhancedTimerData)
      (env : TickEnv) (d : ℚ),
      s.FiredThisTick = [] → s.ToRemove = [] → s.ToUnpause = [] →
      findTimer s.Timers id = some T → T.bLoop = true →
      ∃ T', findTimer (Tick env d s).1.Timers id = some T' ∧
        T'.bLoop = true ∧
        (id ∈ (Tick env d s).2 →
          T'.Phase = ETimerPhase.Running ∧ T'.PhaseElapsed = 0 ∧
          T'.bNextTick = false)) := by
  constructor
  · intro T id nid env deltas hW hHP hLoop hP hNT hPh hel hdel hMode hne
      hsum
    have hTeq : { T with PhaseElapsed := (0 : ℚ) } = T := by
      cases T
      simp only at hel
      rw [hel]
    have haux := oneShot_aux T id nid env hW hHP hLoop hP hNT hPh hMode
      deltas 0 hne (by rw [zero_add]; exact hsum)
    rw [hTeq] at haux
    exact haux
  · intro s id T env d hF hR hU hfind hloop
    by_cases hW : env.WorldValid
    · rw [Tick_eq_of_WorldValid env d s hW]
      dsimp only
      have hfindmut : findTimer
          (mutationPass d env.GlobalScale env.bPausedNow s.Timers).1 id =
          some (tickMutateOne d env.GlobalScale env.bPausedNow T).1 := by
        rw [findTimer_mutationPass, hfind]
        rfl
      have hloopmut :
          (tickMutateOne d env.GlobalScale env.bPausedNow T).1.bLoop =
          true := by
        rw [(tickMutateOne_fields d env.GlobalScale env.bPausedNow
          T).2.2.1]
        exact hloop
      have hkeep := executeFiredLoop_loop_keep (tickFired env d s)
        (mutationPass d env.GlobalScale env.bPausedNow s.Timers).1
        s.ToRemove []
        id (tickMutateOne d env.GlobalScale env.bPausedNow T).1
        hfindmut hloopmut
        (by rw [hR]; exact List.not_mem_nil id)
        (fun h => absurd h (List.not_mem_nil id))
      rcases hkeep with ⟨T', hT'find, hT'loop, hT'rem, hT'inv⟩
      refine ⟨T', ?_, hT'loop, ?_⟩
      · rw [Cleanup_findTimer { s with
            Timers := (tickExec env d s).1, FiredThisTick := [],
            ToRemove := (tickExec env d s).2.1 } id hT'rem hU]
        exact hT'find
      · intro hmem
        exact hT'inv hmem
    · unfold Tick
      rw [if_neg hW]
      exact ⟨T, hfind, hloop, fun h => absurd h (List.not_mem_nil id)⟩

theorem C1_one_shot_and_loop_reset_witness :
    ((runTicks ⟨true, false, 1⟩ [1, 1]
        ⟨[(7, sampleData)], [], [], [], 9⟩).2.count 7 = 1 ∧
      findTimer (runTicks ⟨true, false, 1⟩ [1, 1]
        ⟨[(7, sampleData)], [], [], [], 9⟩).1.Timers 7 = none) ∧
    (∃ T', findTimer (Tick ⟨true, false, 1⟩ 1
        ⟨[(7, { sampleData with bLoop := true })], [], [], [],
          9⟩).1.Timers 7 = some T' ∧
      T'.bLoop = true ∧
      (7 ∈ (Tick ⟨true, false, 1⟩ 1
          ⟨[(7, { sampleData with bLoop := true })], [], [], [], 9⟩).2 →
        T'.Phase = ETimerPhase.Running ∧ T'.PhaseElapsed = 0 ∧
        T'.bNextTick = false)) :=
  ⟨C1_one_shot_and_loop_reset.1 sampleData 7 9 ⟨true, false, 1⟩ [1, 1]
     rfl rfl rfl rfl rfl rfl rfl rfl rfl (by decide)
     (by norm_num [List.sum, sampleData]),
   C1_one_shot_and_loop_reset.2
     ⟨[(7, { sampleData with bLoop := true })], [], [], [], 9⟩ 7
     { sampleData with bLoop := true } ⟨true, false, 1⟩ 1
     rfl rfl rfl rfl rfl⟩

end EnhancedTimerManager
